import Mathlib

/-!
Shallow embedding of the core engine of the `pair3d` repository
(pairing, alignment gating, stereogram composition, MPO container
encoding), together with theorems settling the specification claims.

Conventions of the embedding:
* file paths are represented by natural numbers (path identity only);
* timestamps are integers (seconds; the sources compare
  `total_seconds()` of EXIF/mtime datetimes whose textual formats have
  one-second resolution);
* bytes are natural numbers `< 256`, byte strings are `List Nat`;
* Python `try/except`-guarded fallible operations are `Option`-valued,
  with `none` for the exception branch;
* external library results (file system reads, image decoding, cv2
  feature detection) are supplied through explicit environment records,
  since they are inputs to the logic under verification, not part of it.
-/

/-! ## MPO container encoder (`create_mpo_gui.py`, `create_mpo`) -/

/-- Big-endian 4-byte serialization of a natural number, as produced by
Python's `n.to_bytes(4, byteorder='big')` for `n < 2^32`. -/
def to_bytes_be4 (n : Nat) : List Nat :=
  [n / 2 ^ 24 % 256, n / 2 ^ 16 % 256, n / 2 ^ 8 % 256, n % 256]

/-- Big-endian reading of four bytes. -/
def from_be4 (b0 b1 b2 b3 : Nat) : Nat :=
  ((b0 * 256 + b1) * 256 + b2) * 256 + b3

/-- One entry of the MPF multi-picture index
(`MPFEntry` of the data model: attribute, size, offset, dependency). -/
structure MPFEntry where
  attr : Nat
  size : Nat
  offset : Nat
  dependency : Nat
deriving DecidableEq, Repr

/-- The `MPF:MPEntry` byte string assembled by `create_mpo` in
`create_mpo_gui.py` (lines 119–130): first entry attribute
`b'\x00\x00\x00\x00'` (primary), size of the left stream, offset 0,
dependency 0; second entry attribute `b'\x00\x02\x00\x00'` (stereo
right), size of the right stream, offset = left size, dependency 0. -/
def mpEntryBytes (left_size right_size : Nat) : List Nat :=
  [0, 0, 0, 0] ++ to_bytes_be4 left_size ++ [0, 0, 0, 0] ++ [0, 0, 0, 0] ++
  [0, 2, 0, 0] ++ to_bytes_be4 right_size ++ to_bytes_be4 left_size ++ [0, 0, 0, 0]

/-- Parse a `MPF:MPEntry` byte string into its sequence of 16-byte
entries (attribute, size, offset, dependency, each big-endian u32). -/
def parseEntries : List Nat → List MPFEntry
  | a0 :: a1 :: a2 :: a3 :: s0 :: s1 :: s2 :: s3 ::
    o0 :: o1 :: o2 :: o3 :: d0 :: d1 :: d2 :: d3 :: rest =>
      ⟨from_be4 a0 a1 a2 a3, from_be4 s0 s1 s2 s3,
       from_be4 o0 o1 o2 o3, from_be4 d0 d1 d2 d3⟩ :: parseEntries rest
  | _ => []

/-- The MPO container assembled by `create_mpo` in `create_mpo_gui.py`:
the MPF tag values (lines 116–133) plus the physical byte
concatenation left-then-right (lines 136–142). -/
structure MPOContainer where
  mpfVersion : String
  numberOfImages : Nat
  mpEntryData : List Nat
  mpType : String
  body : List Nat
deriving DecidableEq, Repr

/-- `create_mpo` of `create_mpo_gui.py`, restricted to the data it
writes: MPFVersion `"0100"`, NumberOfImages 2, the two MPF entries, the
MPType string, and the body `left ++ right`. -/
def create_mpo (left_data right_data : List Nat) : MPOContainer :=
  { mpfVersion := "0100"
  , numberOfImages := 2
  , mpEntryData := mpEntryBytes left_data.length right_data.length
  , mpType := "Baseline Stereo Image"
  , body := left_data ++ right_data }

/-- The constant byte blob that `create_mpo` in `stereogrampo.py`
(lines 341–354) stores into the EXIF MakerNote, independent of the
input streams: the ASCII `MPF\0` header, a count of 2, then two
identical 16-byte records with attribute bytes `b'\xb0\x01\x00\x00'`
and all-zero size/offset/data fields. It takes no size arguments
because the source literal mentions none. -/
def stereogrampoMakerNote : List Nat :=
  [0x4D, 0x50, 0x46, 0x00] ++ [0, 0, 0, 2] ++
  [0xb0, 0x01, 0, 0] ++ [0, 0, 0, 0] ++ [0, 0, 0, 0] ++ [0, 0, 0, 0] ++
  [0xb0, 0x01, 0, 0] ++ [0, 0, 0, 0] ++ [0, 0, 0, 0] ++ [0, 0, 0, 0]

/-- Extract one stream from a container body following the §4.5
offset/size contract (the MPO-as-input inverse operation). -/
def extractStream (body : List Nat) (e : MPFEntry) : List Nat :=
  (body.drop e.offset).take e.size

theorem be4_roundtrip (n : Nat) (h : n < 2 ^ 32) :
    from_be4 (n / 2 ^ 24 % 256) (n / 2 ^ 16 % 256) (n / 2 ^ 8 % 256) (n % 256) = n := by
  simp only [from_be4]
  omega

theorem parseEntries_mpEntryBytes (L R : Nat) (hL : L < 2 ^ 32) (hR : R < 2 ^ 32) :
    parseEntries (mpEntryBytes L R) =
      [⟨0, L, 0, 0⟩, ⟨0x00020000, R, L, 0⟩] := by
  simp only [mpEntryBytes, to_bytes_be4, List.cons_append, List.nil_append, parseEntries]
  rw [be4_roundtrip L hL, be4_roundtrip R hR]
  norm_num [from_be4]

/-- C1: at left/right stream lengths 1000 and 2000, the
`create_mpo_gui.py` encoder writes exactly the two MPF entries
[primary, stereo-right] with entry 1 = {attr 0x00000000, size 1000,
offset 0, dependency 0} and entry 2 = {attr 0x00020000, size 2000,
offset 1000, dependency 0}; the `stereogrampo.py` `create_mpo`,
however, stores two constant records {attr 0xb0010000, size 0,
offset 0, dependency 0} regardless of the stream lengths, which differ
from the claimed entries. -/
theorem mpo_encoder_entries_C1 :
    parseEntries (create_mpo (List.replicate 1000 0xD8) (List.replicate 2000 0x4A)).mpEntryData =
      [⟨0x00000000, 1000, 0, 0⟩, ⟨0x00020000, 2000, 1000, 0⟩] ∧
    parseEntries (stereogrampoMakerNote.drop 8) =
      [⟨0xb0010000, 0, 0, 0⟩, ⟨0xb0010000, 0, 0, 0⟩] ∧
    ([⟨0xb0010000, 0, 0, 0⟩, ⟨0xb0010000, 0, 0, 0⟩] : List MPFEntry) ≠
      [⟨0x00000000, 1000, 0, 0⟩, ⟨0x00020000, 2000, 1000, 0⟩] := by
  refine ⟨?_, by decide, by decide⟩
  show parseEntries (mpEntryBytes (List.replicate 1000 (0xD8 : Nat)).length
    (List.replicate 2000 (0x4A : Nat)).length) = _
  rw [List.length_replicate, List.length_replicate]
  exact parseEntries_mpEntryBytes 1000 2000 (by norm_num) (by norm_num)

/-- C3: the container body written by `create_mpo` is the byte-for-byte
concatenation of the left then right streams, and splitting the body at
the offsets/sizes of the two MPF entries it writes (NumberOfImages = 2,
entry 1 at offset 0 with the left length, entry 2 at offset = left
length with the right length) recovers exactly the two original
streams. -/
theorem mpo_roundtrip_C3 (left_data right_data : List Nat)
    (hL : left_data.length < 2 ^ 32) (hR : right_data.length < 2 ^ 32) :
    (create_mpo left_data right_data).numberOfImages = 2 ∧
    ∃ e1 e2,
      parseEntries (create_mpo left_data right_data).mpEntryData = [e1, e2] ∧
      e1.offset = 0 ∧ e1.size = left_data.length ∧
      e2.offset = left_data.length ∧ e2.size = right_data.length ∧
      (create_mpo left_data right_data).body = left_data ++ right_data ∧
      extractStream (create_mpo left_data right_data).body e1 = left_data ∧
      extractStream (create_mpo left_data right_data).body e2 = right_data := by
  refine ⟨rfl, ⟨0, left_data.length, 0, 0⟩,
    ⟨0x00020000, right_data.length, left_data.length, 0⟩,
    parseEntries_mpEntryBytes _ _ hL hR, rfl, rfl, rfl, rfl, rfl, ?_, ?_⟩
  · show ((left_data ++ right_data).drop 0).take left_data.length = left_data
    simp [List.take_left]
  · show ((left_data ++ right_data).drop left_data.length).take right_data.length = right_data
    simp [List.drop_left]

/-- Closed witness for `mpo_roundtrip_C3` at concrete streams. -/
theorem mpo_roundtrip_C3_witness :
    (create_mpo [1, 2, 3] [4, 5]).numberOfImages = 2 ∧
    ∃ e1 e2,
      parseEntries (create_mpo [1, 2, 3] [4, 5]).mpEntryData = [e1, e2] ∧
      e1.offset = 0 ∧ e1.size = [1, 2, 3].length ∧
      e2.offset = [1, 2, 3].length ∧ e2.size = [4, 5].length ∧
      (create_mpo [1, 2, 3] [4, 5]).body = [1, 2, 3] ++ [4, 5] ∧
      extractStream (create_mpo [1, 2, 3] [4, 5]).body e1 = [1, 2, 3] ∧
      extractStream (create_mpo [1, 2, 3] [4, 5]).body e2 = [4, 5] :=
  mpo_roundtrip_C3 [1, 2, 3] [4, 5] (by norm_num) (by norm_num)

/-! ## Greedy pair matcher (`pair3d.v3.py` `task` sorting phase,
`pair3d-web.0-1-1.py` `process_images`, `is_similar_image`) -/

/-- Per-run environment of the matcher: what the file system and the
image libraries return for each path. `timestamp` models
`get_image_timestamp` (mtime, `None` on failure); `phash` models
`Image.open` + `imagehash.phash` (`none` when opening/decoding/hashing
raises); `tThresh`/`hThresh` are the process-wide
`TIME_DIFF_THRESHOLD`/`HASH_DIFF_THRESHOLD` values in effect for the
run. -/
structure MatchEnv where
  timestamp : Nat → Option Int
  phash : Nat → Option (List Bool)
  tThresh : Int
  hThresh : Nat

/-- Default `TIME_DIFF_THRESHOLD = 2` (seconds). -/
def TIME_DIFF_THRESHOLD : Int := 2

/-- Default `HASH_DIFF_THRESHOLD = 10`. -/
def HASH_DIFF_THRESHOLD : Nat := 10

/-- Hamming distance between two perceptual hashes: the value of
`abs(hash1 - hash2)` on `imagehash` hashes of equal bit length. -/
def hashDist : List Bool → List Bool → Nat
  | a :: as, b :: bs => (if a = b then 0 else 1) + hashDist as bs
  | _, _ => 0

/-- `is_similar_image` (`pair3d.v3.py` lines 150–160): hash both files
and compare `abs(hash1 - hash2) < HASH_DIFF_THRESHOLD`; any exception
while opening or hashing yields `False`. -/
def is_similar_image (env : MatchEnv) (file1 file2 : Nat) : Bool :=
  match env.phash file1, env.phash file2 with
  | some hash1, some hash2 => decide (hashDist hash1 hash2 < env.hThresh)
  | _, _ => false

/-- The inner `for path2 in image_files[i+1:]` loop of the sorting
phase: skip used paths, skip paths without a timestamp, and return the
first path2 within the time threshold that is perceptually similar. -/
def scanForward (env : MatchEnv) (t1 : Int) (path1 : Nat) (used : List Nat) :
    List Nat → Option Nat
  | [] => none
  | path2 :: rest =>
    if path2 ∈ used then scanForward env t1 path1 used rest
    else
      match env.timestamp path2 with
      | some t2 =>
        if |t2 - t1| ≤ env.tThresh ∧ is_similar_image env path1 path2 then some path2
        else scanForward env t1 path1 used rest
      | none => scanForward env t1 path1 used rest

/-- The outer `for i, path1 in enumerate(image_files)` loop: each
unused, timestamped path1 is paired with the partner `scanForward`
finds among the strictly later entries; both are then marked used.
Returns the pairs in emission order together with the final used
set. -/
def matchAux (env : MatchEnv) : List Nat → List Nat → List (Nat × Nat) × List Nat
  | [], used => ([], used)
  | path1 :: rest, used =>
    if path1 ∈ used then matchAux env rest used
    else
      match env.timestamp path1 with
      | none => matchAux env rest used
      | some t1 =>
        match scanForward env t1 path1 used rest with
        | some path2 =>
          let r := matchAux env rest (path2 :: path1 :: used)
          ((path1, path2) :: r.1, r.2)
        | none => matchAux env rest used

/-- Sort comparison of
`image_files.sort(key=lambda x: get_image_timestamp(x) or datetime.min)`:
a missing timestamp is replaced by `datetime.min`, which lies strictly
below every value `datetime.fromtimestamp` can return, so `none`
compares below every `some t`. -/
def tsLE (env : MatchEnv) (p q : Nat) : Bool :=
  match env.timestamp p, env.timestamp q with
  | none, _ => true
  | some _, none => false
  | some a, some b => a ≤ b

/-- The sorting phase of `task` (`pair3d.v3.py` lines 518–539) /
`process_images` (`pair3d-web.0-1-1.py` lines 238–257): sort by
timestamp, run the greedy loop, and return the pairs together with the
singles (the files not in the final used set, in sorted order). -/
def process_images (env : MatchEnv) (image_files : List Nat) :
    List (Nat × Nat) × List Nat :=
  let sorted := image_files.mergeSort (tsLE env)
  let r := matchAux env sorted []
  (r.1, sorted.filter (fun f => f ∉ r.2))

/-- The acceptance test of the spec's greedy threshold policy, stated
in the spec's own words: `path2` is not yet used, its timestamp is
within `tThresh` of `t1`, and the perceptual-hash distance between the
two files is strictly below `hThresh`. -/
def specEligible (env : MatchEnv) (used : List Nat) (path1 : Nat) (t1 : Int)
    (path2 : Nat) : Bool :=
  decide (path2 ∉ used) &&
  (match env.timestamp path2 with
   | some t2 => decide (|t2 - t1| ≤ env.tThresh)
   | none => false) &&
  (match env.phash path1, env.phash path2 with
   | some h1, some h2 => decide (hashDist h1 h2 < env.hThresh)
   | _, _ => false)

theorem specEligible_sim (env : MatchEnv) (path1 path2 : Nat) :
    (match env.phash path1, env.phash path2 with
     | some h1, some h2 => decide (hashDist h1 h2 < env.hThresh)
     | _, _ => false) = is_similar_image env path1 path2 := by
  simp only [is_similar_image]

theorem scanForward_eq_findFirst (env : MatchEnv) (t1 : Int) (path1 : Nat)
    (used : List Nat) (l : List Nat) :
    scanForward env t1 path1 used l = l.find? (specEligible env used path1 t1) := by
  induction l with
  | nil => rfl
  | cons path2 rest ih =>
    by_cases hu : path2 ∈ used
    · have he : specEligible env used path1 t1 path2 = false := by
        simp [specEligible, hu]
      rw [List.find?_cons_of_neg _ (by simp [he])]
      simp only [scanForward, if_pos hu]
      exact ih
    · cases hts : env.timestamp path2 with
      | none =>
        have he : specEligible env used path1 t1 path2 = false := by
          simp [specEligible, hts]
        rw [List.find?_cons_of_neg _ (by simp [he])]
        simp only [scanForward, if_neg hu, hts]
        exact ih
      | some t2 =>
        have hsp : specEligible env used path1 t1 path2 =
            (decide (|t2 - t1| ≤ env.tThresh) && is_similar_image env path1 path2) := by
          simp only [specEligible, hts, specEligible_sim, decide_eq_true_eq]
          simp [hu]
        by_cases hcond : |t2 - t1| ≤ env.tThresh ∧ is_similar_image env path1 path2
        · have he : specEligible env used path1 t1 path2 = true := by
            rw [hsp, hcond.2, Bool.and_true, decide_eq_true_eq]
            exact hcond.1
          rw [List.find?_cons_of_pos _ he]
          simp only [scanForward, if_neg hu, hts, if_pos hcond]
        · have he : specEligible env used path1 t1 path2 = false := by
            rw [hsp]
            by_cases ht : |t2 - t1| ≤ env.tThresh
            · have hs : is_similar_image env path1 path2 = false := by
                rcases Bool.eq_false_or_eq_true (is_similar_image env path1 path2)
                  with h | h
                · exact absurd ⟨ht, h⟩ hcond
                · exact h
              rw [hs, Bool.and_false]
            · simp [ht]
          rw [List.find?_cons_of_neg _ (by simp [he])]
          simp only [scanForward, if_neg hu, hts, if_neg hcond]
          exact ih

/-- The two files of matcher scenarios A and B: file 0 at time 0 with
an all-zero 64-bit hash, file 1 at time `gap` with a hash at Hamming
distance 3 from it; default thresholds in effect. -/
def scenarioEnv (gap : Int) : MatchEnv :=
  { timestamp := fun p => if p = 0 then some 0 else if p = 1 then some gap else none
  , phash := fun p =>
      if p = 0 then some (List.replicate 64 false)
      else if p = 1 then some (true :: true :: true :: List.replicate 61 false)
      else none
  , tThresh := TIME_DIFF_THRESHOLD
  , hThresh := HASH_DIFF_THRESHOLD }

/-- C2: for input already sorted ascending by timestamp the pipeline is
the greedy loop followed by the used-set filter; the greedy loop pairs
an unused timestamped `path1` with exactly the first later unused image
satisfying both thresholds (and marks both used, emitting no further
pair for `path1`); under default thresholds two images 2 s apart at
hash distance 3 form the single pair with zero singles, and two images
10 s apart form no pair and both become singles. -/
theorem greedy_matcher_first_fit_C2 :
    (∀ (env : MatchEnv) (image_files : List Nat),
        image_files.Pairwise (fun a b => tsLE env a b = true) →
        process_images env image_files =
          ((matchAux env image_files []).1,
           image_files.filter (fun f => f ∉ (matchAux env image_files []).2))) ∧
    (∀ (env : MatchEnv) (path1 : Nat) (t1 : Int) (used rest : List Nat) (path2 : Nat),
        path1 ∉ used → env.timestamp path1 = some t1 →
        rest.find? (specEligible env used path1 t1) = some path2 →
        matchAux env (path1 :: rest) used =
          ((path1, path2) :: (matchAux env rest (path2 :: path1 :: used)).1,
           (matchAux env rest (path2 :: path1 :: used)).2)) ∧
    process_images (scenarioEnv 2) [0, 1] = ([(0, 1)], []) ∧
    process_images (scenarioEnv 10) [0, 1] = ([], [0, 1]) := by
  have h2 : ([0, 1] : List Nat).mergeSort (tsLE (scenarioEnv 2)) = [0, 1] :=
    List.mergeSort_of_sorted (by decide)
  have h10 : ([0, 1] : List Nat).mergeSort (tsLE (scenarioEnv 10)) = [0, 1] :=
    List.mergeSort_of_sorted (by decide)
  refine ⟨?_, ?_, by simp only [process_images, h2]; decide,
    by simp only [process_images, h10]; decide⟩
  · intro env image_files hs
    simp only [process_images, List.mergeSort_of_sorted hs]
  · intro env path1 t1 used rest path2 hmem hts hfind
    simp only [matchAux, if_neg hmem, hts, scanForward_eq_findFirst, hfind]

/-- Closed witness for `greedy_matcher_first_fit_C2`, instantiating
both quantified parts on the scenario-A input. -/
theorem greedy_matcher_first_fit_C2_witness :
    process_images (scenarioEnv 2) [0, 1] =
      ((matchAux (scenarioEnv 2) [0, 1] []).1,
       [0, 1].filter (fun f => f ∉ (matchAux (scenarioEnv 2) [0, 1] []).2)) ∧
    matchAux (scenarioEnv 2) [0, 1] [] =
      ((0, 1) :: (matchAux (scenarioEnv 2) [1] [1, 0]).1,
       (matchAux (scenarioEnv 2) [1] [1, 0]).2) :=
  ⟨greedy_matcher_first_fit_C2.1 (scenarioEnv 2) [0, 1] (by decide),
   greedy_matcher_first_fit_C2.2.1 (scenarioEnv 2) 0 0 [] [1] 1
     (by decide) (by decide) (by decide)⟩

/-- The multiset of images covered by a pair list. -/
def pairMembers : List (Nat × Nat) → List Nat
  | [] => []
  | (a, b) :: ps => a :: b :: pairMembers ps

theorem matchAux_used_perm (env : MatchEnv) :
    ∀ (files used : List Nat),
      ((matchAux env files used).2).Perm (pairMembers (matchAux env files used).1 ++ used)
  | [], used => by simp [matchAux, pairMembers]
  | path1 :: rest, used => by
    by_cases h1 : path1 ∈ used
    · simpa only [matchAux, if_pos h1] using matchAux_used_perm env rest used
    · cases hts : env.timestamp path1 with
      | none =>
        simpa only [matchAux, if_neg h1, hts] using matchAux_used_perm env rest used
      | some t1 =>
        cases hsf : scanForward env t1 path1 used rest with
        | none =>
          simpa only [matchAux, if_neg h1, hts, hsf] using matchAux_used_perm env rest used
        | some path2 =>
          simp only [matchAux, if_neg h1, hts, hsf, pairMembers]
          refine (matchAux_used_perm env rest (path2 :: path1 :: used)).trans ?_
          refine List.perm_middle.trans ?_
          exact (List.Perm.cons path2 List.perm_middle).trans (List.Perm.swap path1 path2 _)

theorem matchAux_pairs_sound (env : MatchEnv) :
    ∀ (files used : List Nat), files.Nodup →
      (pairMembers (matchAux env files used).1).Nodup ∧
      (∀ a, a ∈ pairMembers (matchAux env files used).1 → a ∈ files ∧ a ∉ used)
  | [], used, _ => by simp [matchAux, pairMembers]
  | path1 :: rest, used, hnd => by
    have hndr : rest.Nodup := hnd.of_cons
    have hp1r : path1 ∉ rest := (List.nodup_cons.mp hnd).1
    by_cases h1 : path1 ∈ used
    · simp only [matchAux, if_pos h1]
      obtain ⟨ha, hb⟩ := matchAux_pairs_sound env rest used hndr
      exact ⟨ha, fun a haM => ⟨List.mem_cons_of_mem _ (hb a haM).1, (hb a haM).2⟩⟩
    · cases hts : env.timestamp path1 with
      | none =>
        simp only [matchAux, if_neg h1, hts]
        obtain ⟨ha, hb⟩ := matchAux_pairs_sound env rest used hndr
        exact ⟨ha, fun a haM => ⟨List.mem_cons_of_mem _ (hb a haM).1, (hb a haM).2⟩⟩
      | some t1 =>
        cases hsf : scanForward env t1 path1 used rest with
        | none =>
          simp only [matchAux, if_neg h1, hts, hsf]
          obtain ⟨ha, hb⟩ := matchAux_pairs_sound env rest used hndr
          exact ⟨ha, fun a haM => ⟨List.mem_cons_of_mem _ (hb a haM).1, (hb a haM).2⟩⟩
        | some path2 =>
          have hsf2 : rest.find? (specEligible env used path1 t1) = some path2 := by
            rw [← scanForward_eq_findFirst]; exact hsf
          have hp2rest : path2 ∈ rest := List.mem_of_find?_eq_some hsf2
          have hspec := List.find?_some hsf2
          have hp2used : path2 ∉ used := by
            simp only [specEligible, Bool.and_eq_true, decide_eq_true_eq] at hspec
            exact hspec.1.1
          have hne : path1 ≠ path2 := fun h => hp1r (h ▸ hp2rest)
          simp only [matchAux, if_neg h1, hts, hsf, pairMembers]
          obtain ⟨ha, hb⟩ := matchAux_pairs_sound env rest (path2 :: path1 :: used) hndr
          constructor
          · rw [List.nodup_cons, List.nodup_cons]
            refine ⟨?_, ?_, ha⟩
            · intro hmem
              rcases List.mem_cons.mp hmem with h | h
              · exact hne h
              · exact hp1r (hb path1 h).1
            · intro hmem
              exact (hb path2 hmem).2 (List.mem_cons_self _ _)
          · intro a haM
            rcases List.mem_cons.mp haM with rfl | haM
            · exact ⟨List.mem_cons_self _ _, h1⟩
            rcases List.mem_cons.mp haM with rfl | haM
            · exact ⟨List.mem_cons_of_mem _ hp2rest, hp2used⟩
            · obtain ⟨haf, hau⟩ := hb a haM
              refine ⟨List.mem_cons_of_mem _ haf, fun hcon => hau ?_⟩
              exact List.mem_cons_of_mem _ (List.mem_cons_of_mem _ hcon)

/-- C5: for every environment and duplicate-free input list, the images
covered by the emitted pairs form a duplicate-free list (no image in
two pairs, none twice in one pair), and pairs plus residual singles
are a permutation of the input: a partition, no image silently
dropped. -/
theorem matcher_partition_C5 (env : MatchEnv) (image_files : List Nat)
    (hnd : image_files.Nodup) :
    (pairMembers (process_images env image_files).1 ++
      (process_images env image_files).2).Perm image_files ∧
    (pairMembers (process_images env image_files).1).Nodup := by
  have hperm : (image_files.mergeSort (tsLE env)).Perm image_files :=
    List.mergeSort_perm image_files (tsLE env)
  have hnds : (image_files.mergeSort (tsLE env)).Nodup := hperm.symm.nodup hnd
  obtain ⟨hmnd, hmem⟩ :=
    matchAux_pairs_sound env (image_files.mergeSort (tsLE env)) [] hnds
  have husd := matchAux_used_perm env (image_files.mergeSort (tsLE env)) []
  rw [List.append_nil] at husd
  set sorted := image_files.mergeSort (tsLE env) with hsorted
  set P := (matchAux env sorted []).1 with hP
  set U := (matchAux env sorted []).2 with hU
  have hUiff : ∀ a, a ∈ U ↔ a ∈ pairMembers P := fun a => husd.mem_iff
  refine ⟨?_, ?_⟩
  · show (pairMembers P ++ sorted.filter (fun f => decide (f ∉ U))).Perm image_files
    refine List.Perm.trans ?_ hperm
    have hlnd : (pairMembers P ++ sorted.filter (fun f => decide (f ∉ U))).Nodup := by
      refine List.Nodup.append hmnd (hnds.filter _) ?_
      intro a haP haF
      have := (List.mem_filter.mp haF).2
      simp only [decide_eq_true_eq] at this
      exact this ((hUiff a).mpr haP)
    rw [List.perm_ext_iff_of_nodup hlnd hnds]
    intro a
    simp only [List.mem_append, List.mem_filter, decide_eq_true_eq]
    constructor
    · rintro (h | ⟨h, _⟩)
      · exact (hmem a h).1
      · exact h
    · intro h
      by_cases hu : a ∈ U
      · exact Or.inl ((hUiff a).mp hu)
      · exact Or.inr ⟨h, hu⟩
  · exact hmnd

/-- Closed witness for `matcher_partition_C5` on the scenario-A run. -/
theorem matcher_partition_C5_witness :
    (pairMembers (process_images (scenarioEnv 2) [0, 1]).1 ++
      (process_images (scenarioEnv 2) [0, 1]).2).Perm [0, 1] ∧
    (pairMembers (process_images (scenarioEnv 2) [0, 1]).1).Nodup :=
  matcher_partition_C5 (scenarioEnv 2) [0, 1] (by decide)

theorem matchAux_mem_pairs_similar (env : MatchEnv) :
    ∀ (files used : List Nat) (pr : Nat × Nat), pr ∈ (matchAux env files used).1 →
      is_similar_image env pr.1 pr.2 = true
  | [], _, _, h => by simp [matchAux] at h
  | path1 :: rest, used, pr, h => by
    by_cases h1 : path1 ∈ used
    · rw [matchAux, if_pos h1] at h
      exact matchAux_mem_pairs_similar env rest used pr h
    · cases hts : env.timestamp path1 with
      | none =>
        rw [matchAux, if_neg h1] at h
        simp only [hts] at h
        exact matchAux_mem_pairs_similar env rest used pr h
      | some t1 =>
        cases hsf : scanForward env t1 path1 used rest with
        | none =>
          rw [matchAux, if_neg h1] at h
          simp only [hts, hsf] at h
          exact matchAux_mem_pairs_similar env rest used pr h
        | some path2 =>
          rw [matchAux, if_neg h1] at h
          simp only [hts, hsf] at h
          rcases List.mem_cons.mp h with rfl | h
          · have hsf2 : rest.find? (specEligible env used path1 t1) = some path2 := by
              rw [← scanForward_eq_findFirst]; exact hsf
            have hspec := List.find?_some hsf2
            simp only [specEligible, Bool.and_eq_true] at hspec
            rw [specEligible_sim] at hspec
            exact hspec.2
          · exact matchAux_mem_pairs_similar env rest (path2 :: path1 :: used) pr h

/-- C10: `is_similar_image` returns `False` whenever either image fails
to open, decode or hash (the exception branch), and consequently no
emitted pair of the greedy matcher contains an unhashable image — in
particular an unreadable image is never accepted as the second
member. -/
theorem similar_total_C10 :
    (∀ (env : MatchEnv) (file1 file2 : Nat),
        env.phash file1 = none ∨ env.phash file2 = none →
        is_similar_image env file1 file2 = false) ∧
    (∀ (env : MatchEnv) (image_files : List Nat) (pr : Nat × Nat),
        pr ∈ (process_images env image_files).1 →
        env.phash pr.2 ≠ none ∧ env.phash pr.1 ≠ none) := by
  constructor
  · intro env file1 file2 h
    rcases h with h | h
    · simp [is_similar_image, h]
    · simp only [is_similar_image, h]
      cases env.phash file1 <;> simp
  · intro env image_files pr hpr
    have hsim := matchAux_mem_pairs_similar env
      (image_files.mergeSort (tsLE env)) [] pr hpr
    simp only [is_similar_image] at hsim
    cases hp1 : env.phash pr.1 with
    | none => rw [hp1] at hsim; simp at hsim
    | some h1 =>
      cases hp2 : env.phash pr.2 with
      | none => rw [hp1, hp2] at hsim; simp at hsim
      | some h2 => exact ⟨by simp [hp2], by simp [hp1]⟩

/-- Closed witness for `similar_total_C10`: an environment where file 2
is unhashable, so similarity with it is `false`; and the scenario-A
pair run, whose pair members are all hashable. -/
theorem similar_total_C10_witness :
    is_similar_image (scenarioEnv 2) 0 2 = false ∧
    ((scenarioEnv 2).phash (0, 1).2 ≠ none ∧ (scenarioEnv 2).phash (0, 1).1 ≠ none) :=
  ⟨similar_total_C10.1 (scenarioEnv 2) 0 2 (Or.inr (by decide)),
   similar_total_C10.2 (scenarioEnv 2) [0, 1] (0, 1)
     (by
       have h2 : ([0, 1] : List Nat).mergeSort (tsLE (scenarioEnv 2)) = [0, 1] :=
         List.mergeSort_of_sorted (by decide)
       simp only [process_images, h2]
       decide)⟩

/-! ## Strict-adjacency pairing (`create_mpo_gui.py`, `find_image_pairs`) -/

/-- One candidate file with its EXIF timestamp (seconds; the parsed
`"%Y:%m:%d %H:%M:%S"` format has one-second resolution, so
`total_seconds()` of a difference is an integer). -/
structure FileInfo where
  path : Nat
  ts : Int
deriving DecidableEq, Repr

/-- The intervening-timestamp test of `find_image_pairs` (lines
236–241): some entry of the candidate list has a timestamp different
from both endpoints and strictly between them. -/
def hasIntervening (all : List FileInfo) (t1 t2 : Int) : Bool :=
  all.any (fun c => decide (c.ts ≠ t1 ∧ c.ts ≠ t2 ∧ t1 < c.ts ∧ c.ts < t2))

/-- The acceptance test for the adjacent candidates at the scan
position: `1 <= time_diff <= 4` and no intervening timestamp. -/
def acceptPair (all : List FileInfo) (a b : FileInfo) : Bool :=
  decide (1 ≤ b.ts - a.ts ∧ b.ts - a.ts ≤ 4) && !hasIntervening all a.ts b.ts

/-- The `while i < len(file_info) - 1` scan of `find_image_pairs`
(lines 228–250): on acceptance emit the adjacent pair and advance by
two (`i += 2`), otherwise advance by one (`i += 1`), keeping the right
member as the next scan position's left member. `all` is the full
sorted candidate list the intervening check ranges over. -/
def fipScan (all : List FileInfo) : List FileInfo → List (FileInfo × FileInfo)
  | a :: b :: rest =>
    if acceptPair all a b then (a, b) :: fipScan all rest
    else fipScan all (b :: rest)
  | _ => []

/-- `find_image_pairs` after timestamp extraction: sort by timestamp,
then scan adjacent positions. -/
def find_image_pairs (file_info : List FileInfo) : List (FileInfo × FileInfo) :=
  let sorted := file_info.mergeSort (fun x y => decide (x.ts ≤ y.ts))
  fipScan sorted sorted

/-- C4: an adjacent candidate pair is accepted exactly when
`1 ≤ Δt ≤ 4` and no third candidate's timestamp lies strictly between
the two (the source's extra `≠`-guards are redundant); on acceptance
the scan consumes both members (advances by 2), on rejection it
consumes only the left member (advances by 1), so the right member
stays eligible as the next position's left member. -/
theorem strict_adjacency_policy_C4 :
    (∀ (all : List FileInfo) (a b : FileInfo),
        acceptPair all a b = true ↔
          (1 ≤ b.ts - a.ts ∧ b.ts - a.ts ≤ 4 ∧
           ∀ c ∈ all, ¬(a.ts < c.ts ∧ c.ts < b.ts))) ∧
    (∀ (all : List FileInfo) (a b : FileInfo) (rest : List FileInfo),
        acceptPair all a b = true →
        fipScan all (a :: b :: rest) = (a, b) :: fipScan all rest) ∧
    (∀ (all : List FileInfo) (a b : FileInfo) (rest : List FileInfo),
        acceptPair all a b = false →
        fipScan all (a :: b :: rest) = fipScan all (b :: rest)) := by
  refine ⟨?_, ?_, ?_⟩
  · intro all a b
    simp only [acceptPair, hasIntervening, Bool.and_eq_true, Bool.not_eq_true',
      List.any_eq_false, decide_eq_true_eq, decide_eq_false_iff_not]
    constructor
    · rintro ⟨⟨h1, h2⟩, h3⟩
      refine ⟨h1, h2, fun c hc hbet => h3 c hc ?_⟩
      exact ⟨by omega, by omega, hbet.1, hbet.2⟩
    · rintro ⟨h1, h2, h3⟩
      exact ⟨⟨h1, h2⟩, fun c hc hcon => h3 c hc ⟨hcon.2.2.1, hcon.2.2.2⟩⟩
  · intro all a b rest h
    rw [fipScan, if_pos h]
  · intro all a b rest h
    rw [fipScan, if_neg (by simp [h])]

/-- Closed witness for `strict_adjacency_policy_C4`: three candidates
at times 0, 2, 10; the (0,2) pair is accepted and consumed together,
while the (2,10) gap is rejected; and a rejected left member (time 10
against a later time 20 with 2's entry rejected first) stays
eligible. -/
theorem strict_adjacency_policy_C4_witness :
    (acceptPair [⟨0, 0⟩, ⟨1, 2⟩, ⟨2, 10⟩] ⟨0, 0⟩ ⟨1, 2⟩ = true ↔
      (1 ≤ (2 : Int) - 0 ∧ (2 : Int) - 0 ≤ 4 ∧
       ∀ c ∈ [(⟨0, 0⟩ : FileInfo), ⟨1, 2⟩, ⟨2, 10⟩], ¬((0 : Int) < c.ts ∧ c.ts < 2))) ∧
    fipScan [⟨0, 0⟩, ⟨1, 2⟩, ⟨2, 10⟩] [⟨0, 0⟩, ⟨1, 2⟩, ⟨2, 10⟩] =
      ((⟨0, 0⟩, ⟨1, 2⟩) : FileInfo × FileInfo) :: fipScan [⟨0, 0⟩, ⟨1, 2⟩, ⟨2, 10⟩] [⟨2, 10⟩] ∧
    fipScan [⟨0, 0⟩, ⟨1, 10⟩, ⟨2, 12⟩] [⟨0, 0⟩, ⟨1, 10⟩, ⟨2, 12⟩] =
      fipScan [⟨0, 0⟩, ⟨1, 10⟩, ⟨2, 12⟩] [⟨1, 10⟩, ⟨2, 12⟩] :=
  ⟨strict_adjacency_policy_C4.1 [⟨0, 0⟩, ⟨1, 2⟩, ⟨2, 10⟩] ⟨0, 0⟩ ⟨1, 2⟩,
   strict_adjacency_policy_C4.2.1 [⟨0, 0⟩, ⟨1, 2⟩, ⟨2, 10⟩] ⟨0, 0⟩ ⟨1, 2⟩ [⟨2, 10⟩]
     (by decide),
   strict_adjacency_policy_C4.2.2 [⟨0, 0⟩, ⟨1, 10⟩, ⟨2, 12⟩] ⟨0, 0⟩ ⟨1, 10⟩ [⟨2, 12⟩]
     (by decide)⟩

/-! ## Stereogram compositor (`stereogrampo.py`, `create_anaglyph`,
`create_side_by_side`, `create_left_right_left`) -/

/-- One RGB pixel. -/
structure RGB where
  r : Nat
  g : Nat
  b : Nat
deriving DecidableEq, Repr

/-- A decoded RGB pixel buffer: width, height, and the pixel at each
coordinate (only coordinates with `x < w` and `y < h` are part of the
image). -/
structure Img where
  w : Nat
  h : Nat
  pix : Nat → Nat → RGB

/-- `Image.new('RGB', (w, h))`: a black canvas. -/
def newRGB (w h : Nat) : Img :=
  { w := w, h := h, pix := fun _ _ => ⟨0, 0, 0⟩ }

/-- `canvas.paste(img, (dx, dy))`: PIL writes `img`'s pixels at the
given offset and leaves the rest of the canvas unchanged; a pasted
image larger than the remaining canvas is clipped (coordinates beyond
the canvas bounds are simply not part of the result), and a smaller
one fills only its own box. No size check is performed and no exception
is raised for mismatched sizes. -/
def Img.paste (canvas : Img) (img : Img) (dx dy : Nat) : Img :=
  { canvas with
    pix := fun x y =>
      if dx ≤ x ∧ x < dx + img.w ∧ dy ≤ y ∧ y < dy + img.h then
        img.pix (x - dx) (y - dy)
      else canvas.pix x y }

/-- Numpy broadcast source index for the assignments
`anaglyph[:, :, k] = right_np[:, :, k]`: a source axis of extent 1 is
repeated, otherwise indexed directly. -/
def bcastIdx (srcExtent i : Nat) : Nat :=
  if srcExtent = 1 then 0 else i

/-- `create_anaglyph` (`stereogrampo.py` lines 261–280): the output
array is `zeros_like(left)`, so sized to the left image; channel 0 is
copied from the left, channels 1 and 2 from the right. The right-hand
channel assignments broadcast the right array over the left's shape and
raise `ValueError` when the shapes are not broadcast-compatible; the
surrounding `except` then returns `None`. -/
def create_anaglyph (left_img right_img : Img) : Option Img :=
  if (right_img.h = left_img.h ∨ right_img.h = 1) ∧
     (right_img.w = left_img.w ∨ right_img.w = 1) then
    some
      { w := left_img.w, h := left_img.h,
        pix := fun x y =>
          { r := (left_img.pix x y).r
          , g := (right_img.pix (bcastIdx right_img.w x) (bcastIdx right_img.h y)).g
          , b := (right_img.pix (bcastIdx right_img.w x) (bcastIdx right_img.h y)).b } }
  else none

/-- `create_side_by_side` (lines 282–299): canvas `(2w, h)` sized from
the left image, left pasted at (0,0), right at (w,0). Nothing in the
body raises on mismatched input sizes, so the `except` branch is
unreachable for a dimension mismatch and an image is always
returned. -/
def create_side_by_side (left_img right_img : Img) : Img :=
  ((newRGB (left_img.w * 2) left_img.h).paste left_img 0 0).paste right_img left_img.w 0

/-- `create_left_right_left` (lines 301–319): canvas `(3w, h)` sized
from the left image; left at (0,0), right at (w,0), left again at
(2w,0). As with side-by-side, no dimension check exists. -/
def create_left_right_left (left_img right_img : Img) : Img :=
  (((newRGB (left_img.w * 3) left_img.h).paste left_img 0 0).paste
    right_img left_img.w 0).paste left_img (left_img.w * 2) 0

/-- Concrete left image of compositor scenario C: 1×1, pixel
(200, 10, 10). -/
def leftC : Img := { w := 1, h := 1, pix := fun _ _ => ⟨200, 10, 10⟩ }

/-- Concrete right image of compositor scenario C: 1×1, pixel
(10, 210, 220). -/
def rightC : Img := { w := 1, h := 1, pix := fun _ _ => ⟨10, 210, 220⟩ }

/-- C6: on equal-dimension inputs the anaglyph succeeds, is W×H, and
each of its pixels takes R from the left and G, B from the right; in
particular left pixel (200,10,10) with right pixel (10,210,220) gives
anaglyph pixel (200,210,220). -/
theorem anaglyph_pixels_C6 :
    (∀ left_img right_img : Img,
        left_img.w = right_img.w → left_img.h = right_img.h →
        ∃ out, create_anaglyph left_img right_img = some out ∧
          out.w = left_img.w ∧ out.h = left_img.h ∧
          ∀ x y, x < left_img.w → y < left_img.h →
            out.pix x y =
              ⟨(left_img.pix x y).r, (right_img.pix x y).g, (right_img.pix x y).b⟩) ∧
    (create_anaglyph leftC rightC).map (fun out => out.pix 0 0) =
      some ⟨200, 210, 220⟩ := by
  constructor
  · intro left_img right_img hw hh
    refine ⟨_, if_pos ⟨Or.inl hh.symm, Or.inl hw.symm⟩, rfl, rfl, ?_⟩
    intro x y hx hy
    by_cases hw1 : right_img.w = 1
    · have hx0 : x = 0 := by omega
      by_cases hh1 : right_img.h = 1
      · have hy0 : y = 0 := by omega
        simp [bcastIdx, hw1, hh1, hx0, hy0]
      · simp [bcastIdx, hw1, hh1, hx0]
    · by_cases hh1 : right_img.h = 1
      · have hy0 : y = 0 := by omega
        simp [bcastIdx, hw1, hh1, hy0]
      · simp [bcastIdx, hw1, hh1]
  · rfl

/-- Closed witness for `anaglyph_pixels_C6` instantiating the
quantified part on scenario C's concrete 1×1 images. -/
theorem anaglyph_pixels_C6_witness :
    ∃ out, create_anaglyph leftC rightC = some out ∧
      out.w = leftC.w ∧ out.h = leftC.h ∧
      ∀ x y, x < leftC.w → y < leftC.h →
        out.pix x y = ⟨(leftC.pix x y).r, (rightC.pix x y).g, (rightC.pix x y).b⟩ :=
  anaglyph_pixels_C6.1 leftC rightC rfl rfl

/-- C7: for dimension-matched W×H inputs the anaglyph output is W×H,
the side-by-side canvas is 2W×H with the left image at (0,0) and the
right at (W,0), and the left-right-left canvas is 3W×H with left at
(0,0), right at (W,0) and left again at (2W,0). -/
theorem compositor_dimensions_C7 (left_img right_img : Img)
    (hw : left_img.w = right_img.w) (hh : left_img.h = right_img.h) :
    (∃ out, create_anaglyph left_img right_img = some out ∧
      out.w = left_img.w ∧ out.h = left_img.h) ∧
    ((create_side_by_side left_img right_img).w = 2 * left_img.w ∧
     (create_side_by_side left_img right_img).h = left_img.h ∧
     ∀ x y, x < left_img.w → y < left_img.h →
       (create_side_by_side left_img right_img).pix x y = left_img.pix x y ∧
       (create_side_by_side left_img right_img).pix (left_img.w + x) y =
         right_img.pix x y) ∧
    ((create_left_right_left left_img right_img).w = 3 * left_img.w ∧
     (create_left_right_left left_img right_img).h = left_img.h ∧
     ∀ x y, x < left_img.w → y < left_img.h →
       (create_left_right_left left_img right_img).pix x y = left_img.pix x y ∧
       (create_left_right_left left_img right_img).pix (left_img.w + x) y =
         right_img.pix x y ∧
       (create_left_right_left left_img right_img).pix (2 * left_img.w + x) y =
         left_img.pix x y) := by
  refine ⟨⟨_, if_pos ⟨Or.inl hh.symm, Or.inl hw.symm⟩, rfl, rfl⟩, ?_, ?_⟩
  · refine ⟨by simp [create_side_by_side, Img.paste, newRGB, Nat.mul_comm], rfl, ?_⟩
    intro x y hx hy
    constructor
    · show (if left_img.w ≤ x ∧ x < left_img.w + right_img.w ∧ 0 ≤ y ∧ y < 0 + right_img.h
          then right_img.pix (x - left_img.w) (y - 0)
          else if 0 ≤ x ∧ x < 0 + left_img.w ∧ 0 ≤ y ∧ y < 0 + left_img.h
          then left_img.pix (x - 0) (y - 0)
          else ⟨0, 0, 0⟩) = left_img.pix x y
      rw [if_neg (by omega), if_pos (by omega)]
      simp
    · show (if left_img.w ≤ left_img.w + x ∧ left_img.w + x < left_img.w + right_img.w ∧
            0 ≤ y ∧ y < 0 + right_img.h
          then right_img.pix (left_img.w + x - left_img.w) (y - 0)
          else if 0 ≤ left_img.w + x ∧ left_img.w + x < 0 + left_img.w ∧
            0 ≤ y ∧ y < 0 + left_img.h
          then left_img.pix (left_img.w + x - 0) (y - 0)
          else ⟨0, 0, 0⟩) = right_img.pix x y
      rw [if_pos (by omega)]
      congr 1
      all_goals omega
  · refine ⟨by simp [create_left_right_left, Img.paste, newRGB, Nat.mul_comm], rfl, ?_⟩
    intro x y hx hy
    refine ⟨?_, ?_, ?_⟩
    · show (if left_img.w * 2 ≤ x ∧ x < left_img.w * 2 + left_img.w ∧
            0 ≤ y ∧ y < 0 + left_img.h
          then left_img.pix (x - left_img.w * 2) (y - 0)
          else if left_img.w ≤ x ∧ x < left_img.w + right_img.w ∧
            0 ≤ y ∧ y < 0 + right_img.h
          then right_img.pix (x - left_img.w) (y - 0)
          else if 0 ≤ x ∧ x < 0 + left_img.w ∧ 0 ≤ y ∧ y < 0 + left_img.h
          then left_img.pix (x - 0) (y - 0)
          else ⟨0, 0, 0⟩) = left_img.pix x y
      rw [if_neg (by omega), if_neg (by omega), if_pos (by omega)]
      simp
    · show (if left_img.w * 2 ≤ left_img.w + x ∧
            left_img.w + x < left_img.w * 2 + left_img.w ∧ 0 ≤ y ∧ y < 0 + left_img.h
          then left_img.pix (left_img.w + x - left_img.w * 2) (y - 0)
          else if left_img.w ≤ left_img.w + x ∧
            left_img.w + x < left_img.w + right_img.w ∧ 0 ≤ y ∧ y < 0 + right_img.h
          then right_img.pix (left_img.w + x - left_img.w) (y - 0)
          else if 0 ≤ left_img.w + x ∧ left_img.w + x < 0 + left_img.w ∧
            0 ≤ y ∧ y < 0 + left_img.h
          then left_img.pix (left_img.w + x - 0) (y - 0)
          else ⟨0, 0, 0⟩) = right_img.pix x y
      rw [if_neg (by omega), if_pos (by omega)]
      congr 1
      all_goals omega
    · show (if left_img.w * 2 ≤ 2 * left_img.w + x ∧
            2 * left_img.w + x < left_img.w * 2 + left_img.w ∧ 0 ≤ y ∧ y < 0 + left_img.h
          then left_img.pix (2 * left_img.w + x - left_img.w * 2) (y - 0)
          else if left_img.w ≤ 2 * left_img.w + x ∧
            2 * left_img.w + x < left_img.w + right_img.w ∧ 0 ≤ y ∧ y < 0 + right_img.h
          then right_img.pix (2 * left_img.w + x - left_img.w) (y - 0)
          else if 0 ≤ 2 * left_img.w + x ∧ 2 * left_img.w + x < 0 + left_img.w ∧
            0 ≤ y ∧ y < 0 + left_img.h
          then left_img.pix (2 * left_img.w + x - 0) (y - 0)
          else ⟨0, 0, 0⟩) = left_img.pix x y
      rw [if_pos (by omega)]
      congr 1
      all_goals omega

/-- Closed witness for `compositor_dimensions_C7` on the concrete 1×1
scenario-C images. -/
theorem compositor_dimensions_C7_witness :
    (∃ out, create_anaglyph leftC rightC = some out ∧
      out.w = leftC.w ∧ out.h = leftC.h) ∧
    ((create_side_by_side leftC rightC).w = 2 * leftC.w ∧
     (create_side_by_side leftC rightC).h = leftC.h ∧
     ∀ x y, x < leftC.w → y < leftC.h →
       (create_side_by_side leftC rightC).pix x y = leftC.pix x y ∧
       (create_side_by_side leftC rightC).pix (leftC.w + x) y = rightC.pix x y) ∧
    ((create_left_right_left leftC rightC).w = 3 * leftC.w ∧
     (create_left_right_left leftC rightC).h = leftC.h ∧
     ∀ x y, x < leftC.w → y < leftC.h →
       (create_left_right_left leftC rightC).pix x y = leftC.pix x y ∧
       (create_left_right_left leftC rightC).pix (leftC.w + x) y = rightC.pix x y ∧
       (create_left_right_left leftC rightC).pix (2 * leftC.w + x) y = leftC.pix x y) :=
  compositor_dimensions_C7 leftC rightC rfl rfl

/-- Mismatch counterexample left image: 2×2, constant pixel (1,2,3). -/
def leftM : Img := { w := 2, h := 2, pix := fun _ _ => ⟨1, 2, 3⟩ }

/-- Mismatch counterexample right image: 3×1, constant pixel (4,5,6). -/
def rightM : Img := { w := 3, h := 1, pix := fun _ _ => ⟨4, 5, 6⟩ }

/-- C9 counterexample: for the mismatched 2×2 / 3×1 inputs,
`create_side_by_side` does not signal any failure — it silently
produces a 4×2 output image, sized from the left image alone, with the
right image's pixels pasted where they land (e.g. at (2,0)) and black
filler where the too-short right image does not reach (e.g. at (2,1)).
The claim's universal "each compositor operation treats the violation
as a precondition error" is therefore false. -/
theorem compositor_mismatch_cex_C9 :
    (leftM.w ≠ rightM.w ∧ leftM.h ≠ rightM.h) ∧
    (create_side_by_side leftM rightM).w = 4 ∧
    (create_side_by_side leftM rightM).h = 2 ∧
    (create_side_by_side leftM rightM).pix 2 0 = ⟨4, 5, 6⟩ ∧
    (create_side_by_side leftM rightM).pix 2 1 = ⟨0, 0, 0⟩ ∧
    (create_left_right_left leftM rightM).w = 6 ∧
    (create_left_right_left leftM rightM).h = 2 := by
  refine ⟨⟨by decide, by decide⟩, rfl, rfl, ?_, ?_, rfl, rfl⟩
  · show (if 2 ≤ 2 ∧ 2 < 2 + rightM.w ∧ 0 ≤ 0 ∧ 0 < 0 + rightM.h
        then rightM.pix (2 - 2) (0 - 0)
        else if 0 ≤ 2 ∧ 2 < 0 + leftM.w ∧ 0 ≤ 0 ∧ 0 < 0 + leftM.h
        then leftM.pix (2 - 0) (0 - 0)
        else ⟨0, 0, 0⟩) = ⟨4, 5, 6⟩
    rw [if_pos (by simp [rightM])]
    rfl
  · show (if 2 ≤ 2 ∧ 2 < 2 + rightM.w ∧ 0 ≤ 1 ∧ 1 < 0 + rightM.h
        then rightM.pix (2 - 2) (1 - 0)
        else if 0 ≤ 2 ∧ 2 < 0 + leftM.w ∧ 0 ≤ 1 ∧ 1 < 0 + leftM.h
        then leftM.pix (2 - 0) (1 - 0)
        else ⟨0, 0, 0⟩) = ⟨0, 0, 0⟩
    rw [if_neg (by simp [rightM]), if_neg (by simp [leftM])]

/-- C9 amended: only the anaglyph path signals a dimension mismatch —
when the right buffer does not broadcast over the left's shape the
channel assignment raises and `create_anaglyph` returns `None` — while
`create_side_by_side` and `create_left_right_left` perform no dimension
check at all: for every input pair, matched or not, they return a
canvas sized from the left image alone (2W×H and 3W×H). -/
theorem compositor_mismatch_amended_C9 :
    (∀ left_img right_img : Img,
        ¬((right_img.h = left_img.h ∨ right_img.h = 1) ∧
          (right_img.w = left_img.w ∨ right_img.w = 1)) →
        create_anaglyph left_img right_img = none) ∧
    (∀ left_img right_img : Img,
        (create_side_by_side left_img right_img).w = 2 * left_img.w ∧
        (create_side_by_side left_img right_img).h = left_img.h) ∧
    (∀ left_img right_img : Img,
        (create_left_right_left left_img right_img).w = 3 * left_img.w ∧
        (create_left_right_left left_img right_img).h = left_img.h) := by
  refine ⟨?_, ?_, ?_⟩
  · intro left_img right_img h
    exact if_neg h
  · intro left_img right_img
    exact ⟨by simp [create_side_by_side, Img.paste, newRGB, Nat.mul_comm], rfl⟩
  · intro left_img right_img
    exact ⟨by simp [create_left_right_left, Img.paste, newRGB, Nat.mul_comm], rfl⟩

/-- Closed witness for `compositor_mismatch_amended_C9` at the
mismatched 2×2 / 3×1 images (non-broadcastable widths). -/
theorem compositor_mismatch_amended_C9_witness :
    create_anaglyph leftM rightM = none ∧
    ((create_side_by_side leftM rightM).w = 2 * leftM.w ∧
     (create_side_by_side leftM rightM).h = leftM.h) ∧
    ((create_left_right_left leftM rightM).w = 3 * leftM.w ∧
     (create_left_right_left leftM rightM).h = leftM.h) :=
  ⟨compositor_mismatch_amended_C9.1 leftM rightM (by simp [leftM, rightM]),
   compositor_mismatch_amended_C9.2.1 leftM rightM,
   compositor_mismatch_amended_C9.2.2 leftM rightM⟩

/-! ## Geometric alignment gating and batch semantics
(`stereogrampo.py`, `align_images` and the per-pair loop of
`start_processing`) -/

/-- What the external vision library returns for one candidate pair:
the grayscale decodes (`cv2.imread`, `None` on failure), the ORB
descriptor sets (`None` when no descriptors are found), the
cross-checked descriptor matches, and the homography estimation result
combined with the resampling it induces (`None` when
`cv2.findHomography` fails). `leftRGB` is the PIL decode of the left
image used as the first returned buffer. -/
structure CVPair where
  leftGray : Option Img
  rightGray : Option Img
  descr1 : Option (List Nat)
  descr2 : Option (List Nat)
  matchList : List (Nat × Nat)
  warp : Option (Nat → Nat → RGB)
  leftRGB : Img

/-- `align_images` (`stereogrampo.py` lines 195–259): fail (`None`)
when either grayscale decode fails, when either descriptor set is
missing, when fewer than 10 matches survive (lines 236–238), or when
homography estimation fails; otherwise return the left image and the
right image resampled onto the left's pixel grid. -/
def align_images (d : CVPair) : Option (Img × Img) :=
  match d.leftGray, d.rightGray with
  | some lg, some _ =>
    match d.descr1, d.descr2 with
    | some _, some _ =>
      if d.matchList.length < 10 then none
      else
        match d.warp with
        | none => none
        | some f => some (d.leftRGB, { w := lg.w, h := lg.h, pix := f })
    | _, _ => none
  | _, _ => none

/-- One pair of the batch together with whether its two files open as
images (the validation `Image.open` at the top of the loop body). -/
structure BatchPair where
  leftOpens : Bool
  rightOpens : Bool
  cv : CVPair

/-- The recorded outcome of one pair of the batch loop. -/
inductive PairOutcome where
  | invalidImage
  | alignmentFailed
  | processed
deriving DecidableEq, Repr

/-- The body of the per-pair loop of `start_processing` (lines
785–835), reduced to its control flow: an unreadable pair is skipped
(`continue` after the validation error is logged), an alignment
failure is skipped (`continue` after the skip is logged, lines
805–808), and otherwise the pair is composited and saved. -/
def processPair (p : BatchPair) : PairOutcome :=
  if ¬(p.leftOpens = true ∧ p.rightOpens = true) then .invalidImage
  else
    match align_images p.cv with
    | none => .alignmentFailed
    | some _ => .processed

/-- The whole batch loop: every pair of the list is visited in order
and yields one recorded outcome; no outcome aborts the loop. -/
def start_processing (pairs : List BatchPair) : List PairOutcome :=
  pairs.map processPair

/-- C8: fewer than 10 surviving matches makes `align_images` return
failure (`None`, no aligned result); in the batch loop such a readable
pair's outcome is the recorded `alignmentFailed` skip; and the loop
processes the pairs before and after a failing pair unchanged — the
batch proceeds rather than aborting. -/
theorem alignment_failure_skips_C8 :
    (∀ d : CVPair, d.matchList.length < 10 → align_images d = none) ∧
    (∀ p : BatchPair, p.leftOpens = true → p.rightOpens = true →
        p.cv.matchList.length < 10 → processPair p = .alignmentFailed) ∧
    (∀ (before afterw : List BatchPair) (p : BatchPair),
        start_processing (before ++ p :: afterw) =
          start_processing before ++ processPair p :: start_processing afterw) := by
  have halign : ∀ d : CVPair, d.matchList.length < 10 → align_images d = none := by
    intro d h
    simp only [align_images]
    cases d.leftGray <;> cases d.rightGray <;> try rfl
    cases d.descr1 <;> cases d.descr2 <;> simp [if_pos h]
  refine ⟨halign, ?_, ?_⟩
  · intro p hl hr h
    simp only [processPair, hl, hr, and_self, not_true_eq_false, if_false]
    rw [halign p.cv h]
  · intro before afterw p
    simp [start_processing]

/-- A concrete pair whose images open and decode but whose descriptor
matching yields only 3 correspondences. -/
def fewMatchesPair : BatchPair :=
  { leftOpens := true
  , rightOpens := true
  , cv :=
    { leftGray := some (newRGB 4 4)
    , rightGray := some (newRGB 4 4)
    , descr1 := some [1, 2, 3]
    , descr2 := some [4, 5, 6]
    , matchList := [(0, 0), (1, 1), (2, 2)]
    , warp := some (fun _ _ => ⟨0, 0, 0⟩)
    , leftRGB := newRGB 4 4 } }

/-- A concrete pair that aligns and processes normally. -/
def okPair : BatchPair :=
  { leftOpens := true
  , rightOpens := true
  , cv :=
    { leftGray := some (newRGB 4 4)
    , rightGray := some (newRGB 4 4)
    , descr1 := some [1, 2, 3]
    , descr2 := some [4, 5, 6]
    , matchList := List.replicate 12 (0, 0)
    , warp := some (fun _ _ => ⟨0, 0, 0⟩)
    , leftRGB := newRGB 4 4 } }

/-- Closed witness for `alignment_failure_skips_C8`: the 3-match pair
fails alignment, is recorded as an alignment skip, and a batch holding
it between two good pairs still processes both neighbours. -/
theorem alignment_failure_skips_C8_witness :
    align_images fewMatchesPair.cv = none ∧
    processPair fewMatchesPair = .alignmentFailed ∧
    start_processing [okPair, fewMatchesPair, okPair] =
      start_processing [okPair] ++ processPair fewMatchesPair ::
        start_processing [okPair] :=
  ⟨alignment_failure_skips_C8.1 fewMatchesPair.cv (by decide),
   alignment_failure_skips_C8.2.1 fewMatchesPair rfl rfl (by decide),
   alignment_failure_skips_C8.2.2 [okPair] [okPair] fewMatchesPair⟩
